import Mathlib

/-!
Verification of the Newton-method minimizers in `newton.py` and
`newton_multivariate.py`.

The Python code is embedded shallowly over `ℚ`: Python floats become exact
rationals, the `while` loops become fuel-indexed structural recursions
returning `Option` (`none` = the fuel ran out before the loop exited, so the
run is not known to terminate within that fuel), and the printed warnings
become an explicit exit-reason tag carried in the result.  `math.inf`, the
initial value of `x_old`, is embedded as `none : Option ℚ` (the first
distance test always succeeds against it, exactly as `abs(x - inf) > tol`
always holds).
-/

/-- Embeds `get_first_derivative` (src/newton.py, line 21):
`(fun(x + eps) - fun(x)) / eps`. -/
def get_first_derivative (x : ℚ) (f : ℚ → ℚ) (eps : ℚ) : ℚ :=
  (f (x + eps) - f x) / eps

/-- Embeds `get_second_derivative` (src/newton.py, line 41):
`(get_first_derivative(x + eps, fun, eps) - get_first_derivative(x, fun, eps)) / eps`. -/
def get_second_derivative (x : ℚ) (f : ℚ → ℚ) (eps : ℚ) : ℚ :=
  (get_first_derivative (x + eps) f eps - get_first_derivative x f eps) / eps

/-- The centered first difference `(f(x+eps) - f(x-eps)) / (2*eps)`, written
from the spec's words ("a one-sided forward difference, not centered") as the
formula the spec says the code does NOT compute. -/
def centered_difference (x : ℚ) (f : ℚ → ℚ) (eps : ℚ) : ℚ :=
  (f (x + eps) - f (x - eps)) / (2 * eps)

/-- The symmetric second difference `(f(x+eps) - 2*f(x) + f(x-eps)) / eps²`,
written from the spec's words as the formula the spec says the code does NOT
compute. -/
def symmetric_second_difference (x : ℚ) (f : ℚ → ℚ) (eps : ℚ) : ℚ :=
  (f (x + eps) - 2 * f x + f (x - eps)) / (eps * eps)

/-- How a run of the univariate `minimize` loop ended: by the convergence
test on `abs(x_new - x_old)`, by the zero-second-derivative warning
(line 86), by the non-convexity warning (line 89), or by the iteration-cap
warning (line 103). -/
inductive ExitReason : Type
  | converged
  | zeroSecond
  | nonConvex
  | maxIter
deriving DecidableEq

/-- Embeds the backtracking line search of `minimize` (src/newton.py,
lines 95-99).  `t` is the current step scale (the source starts it at `1`);
`fuel` bounds how many shrinking passes we are willing to unfold — the source
loop is uncapped, so `none` means the loop was still running after `fuel`
passes. -/
def backtracking_line_search (f : ℚ → ℚ) (alpha beta x_old d fd : ℚ) :
    ℚ → ℕ → Option ℚ
  | _, 0 => none
  | t, fuel + 1 =>
    if f (x_old + t * d) > f x_old + alpha * t * fd * d then
      backtracking_line_search f alpha beta x_old d fd (beta * t) fuel
    else
      some (x_old + t * d)

/-- The `while abs(x_new - x_old) > tol` test of src/newton.py line 82, with
`x_old = none` embedding the initial `x_old = math.inf` (against which the
test always holds). -/
def far_from (x : ℚ) (x_old : Option ℚ) (tol : ℚ) : Prop :=
  match x_old with
  | none => True
  | some y => |x - y| > tol

instance (x : ℚ) (x_old : Option ℚ) (tol : ℚ) : Decidable (far_from x x_old tol) := by
  unfold far_from
  cases x_old with
  | none => exact inferInstance
  | some y => exact inferInstance

/-- Embeds the main loop of `minimize` (src/newton.py, lines 79-105).
Arguments after the configuration are: outer fuel, `x_new`, `x_old`
(`none` = `math.inf`), `n_iter`.  Returns the final iterate, the exit
reason, and the final `n_iter`; `none` if either loop was still running
when its fuel ran out.  `max_iter` is a rational because Python lets a
float through the `max_iter <= 0` check and then compares the integer
counter `n_iter` with it by numeric equality (`n_iter == max_iter`).
The source's local bindings `first_derivative`, `second_derivative` and
`search_direction = -first_derivative/second_derivative` are inlined at
their use sites (each is assigned once and never mutated in between). -/
def minimize_loop (f : ℚ → ℚ) (max_iter eps tol alpha beta : ℚ)
    (inner_fuel : ℕ) : ℕ → ℚ → Option ℚ → ℕ → Option (ℚ × ExitReason × ℕ)
  | 0, _, _, _ => none
  | fuel + 1, x_new, x_old, n_iter =>
    if ¬ far_from x_new x_old tol then
      some (x_new, ExitReason.converged, n_iter)
    else
      if get_second_derivative x_new f eps = 0 then
        some (x_new, ExitReason.zeroSecond, n_iter)
      else if get_second_derivative x_new f eps < 0 then
        some (x_new, ExitReason.nonConvex, n_iter)
      else
        match backtracking_line_search f alpha beta x_new
            (-(get_first_derivative x_new f eps) / get_second_derivative x_new f eps)
            (get_first_derivative x_new f eps) 1 inner_fuel with
        | none => none
        | some x' =>
          if ((n_iter + 1 : ℕ) : ℚ) = max_iter then
            some (x', ExitReason.maxIter, n_iter + 1)
          else
            minimize_loop f max_iter eps tol alpha beta inner_fuel fuel
              x' (some x_new) (n_iter + 1)

/-- C2: `get_first_derivative(x, fun, eps)` returns exactly
`(fun(x+eps) - fun(x)) / eps`, the one-sided forward difference; it is not
the centered difference (they disagree on `fun y = y*y` at `x = 0`,
`eps = 1`). -/
theorem get_first_derivative_is_forward_difference :
    (∀ (x eps : ℚ) (f : ℚ → ℚ),
      get_first_derivative x f eps = (f (x + eps) - f x) / eps) ∧
    get_first_derivative 0 (fun y => y * y) 1 ≠
      centered_difference 0 (fun y => y * y) 1 := by
  constructor
  · intro x eps f
    rfl
  · norm_num [get_first_derivative, centered_difference]

/-- C3: `get_second_derivative(x, fun, eps)` returns exactly
`(get_first_derivative(x+eps, fun, eps) - get_first_derivative(x, fun, eps)) / eps`,
the forward difference of the forward-difference first derivative; it is not
the symmetric second difference (they disagree on `fun y = y*y*y` at `x = 0`,
`eps = 1`). -/
theorem get_second_derivative_is_nested_forward_difference :
    (∀ (x eps : ℚ) (f : ℚ → ℚ),
      get_second_derivative x f eps =
        (get_first_derivative (x + eps) f eps - get_first_derivative x f eps) / eps) ∧
    get_second_derivative 0 (fun y => y * y * y) 1 ≠
      symmetric_second_difference 0 (fun y => y * y * y) 1 := by
  constructor
  · intro x eps f
    rfl
  · norm_num [get_second_derivative, get_first_derivative,
      symmetric_second_difference]

/-- A shallow model of the Python values `minimize` can receive: a number
(`int`/`float`, embedded as `ℚ`), a callable, or anything else (e.g. the
string `"a"` of the spec's invalid-input example). -/
inductive PyVal : Type
  | num (q : ℚ)
  | fn (f : ℚ → ℚ)
  | other

/-- `callable(fun)` of the Python validation (src/newton.py line 69). -/
def PyVal.callable : PyVal → Bool
  | PyVal.fn _ => true
  | _ => false

/-- `isinstance(x0, (int, float))` of the Python validation (line 71). -/
def PyVal.isNumber : PyVal → Bool
  | PyVal.num _ => true
  | _ => false

/-- The underlying callable of a `PyVal`; only consulted after the
`callable` check has passed. -/
def PyVal.toFun : PyVal → (ℚ → ℚ)
  | PyVal.fn f => f
  | _ => fun _ => 0

/-- The underlying number of a `PyVal`; only consulted after the
`isNumber` check has passed. -/
def PyVal.toRat : PyVal → ℚ
  | PyVal.num q => q
  | _ => 0

/-- The five `ValueError`s `minimize` can raise (src/newton.py lines 69-78),
one per validation condition, in source order. -/
inductive ValueError : Type
  | notCallable
  | x0NotNumber
  | maxIterNotPositive
  | epsNotPositive
  | tolNotPositive
deriving DecidableEq

/-- Embeds `minimize` (src/newton.py lines 43-105): the five validation
checks in source order, then the main loop started at `x_new = x0`,
`x_old = math.inf` (`none`), `n_iter = 0`. -/
def minimize (x0 funv : PyVal) (max_iter eps tol alpha beta : ℚ)
    (inner_fuel outer_fuel : ℕ) :
    Except ValueError (Option (ℚ × ExitReason × ℕ)) :=
  if PyVal.callable funv = false then Except.error ValueError.notCallable
  else if PyVal.isNumber x0 = false then Except.error ValueError.x0NotNumber
  else if max_iter ≤ 0 then Except.error ValueError.maxIterNotPositive
  else if eps ≤ 0 then Except.error ValueError.epsNotPositive
  else if tol ≤ 0 then Except.error ValueError.tolNotPositive
  else
    Except.ok (minimize_loop (PyVal.toFun funv) max_iter eps tol alpha beta
      inner_fuel outer_fuel (PyVal.toRat x0) none 0)

/-- C4: `minimize` validates before any iteration and before any evaluation
of `fun` (the results below are the same for every `f` and every fuel, so no
property of `f` is consulted), raising exactly these invalid-argument errors
in this order: `fun` not callable, `x0` not numeric, `max_iter ≤ 0`,
`eps ≤ 0`, `tol ≤ 0`; in particular `minimize("a", f)` and
`minimize(1.0, 42)` each raise before `fun` is evaluated, and with all
checks satisfied no error is raised. -/
theorem minimize_validates_in_order (f : ℚ → ℚ)
    (x max_iter eps tol alpha beta : ℚ) (ifuel ofuel : ℕ) :
    (minimize PyVal.other (PyVal.fn f) max_iter eps tol alpha beta ifuel ofuel
        = Except.error ValueError.x0NotNumber) ∧
    (minimize (PyVal.num 1) (PyVal.num 42) max_iter eps tol alpha beta ifuel ofuel
        = Except.error ValueError.notCallable) ∧
    (minimize PyVal.other (PyVal.num 42) max_iter eps tol alpha beta ifuel ofuel
        = Except.error ValueError.notCallable) ∧
    (max_iter ≤ 0 →
      minimize (PyVal.num x) (PyVal.fn f) max_iter eps tol alpha beta ifuel ofuel
        = Except.error ValueError.maxIterNotPositive) ∧
    (0 < max_iter → eps ≤ 0 →
      minimize (PyVal.num x) (PyVal.fn f) max_iter eps tol alpha beta ifuel ofuel
        = Except.error ValueError.epsNotPositive) ∧
    (0 < max_iter → 0 < eps → tol ≤ 0 →
      minimize (PyVal.num x) (PyVal.fn f) max_iter eps tol alpha beta ifuel ofuel
        = Except.error ValueError.tolNotPositive) ∧
    (0 < max_iter → 0 < eps → 0 < tol →
      minimize (PyVal.num x) (PyVal.fn f) max_iter eps tol alpha beta ifuel ofuel
        = Except.ok (minimize_loop f max_iter eps tol alpha beta
            ifuel ofuel x none 0)) := by
  refine ⟨?_, ?_, ?_, ?_, ?_, ?_, ?_⟩
  · simp [minimize, PyVal.callable, PyVal.isNumber]
  · simp [minimize, PyVal.callable]
  · simp [minimize, PyVal.callable]
  · intro hm
    simp [minimize, PyVal.callable, PyVal.isNumber, hm]
  · intro hm he
    simp [minimize, PyVal.callable, PyVal.isNumber, hm.not_le, he]
  · intro hm he ht
    simp [minimize, PyVal.callable, PyVal.isNumber, hm.not_le, he.not_le, ht]
  · intro hm he ht
    simp [minimize, PyVal.callable, PyVal.isNumber, PyVal.toFun, PyVal.toRat,
      hm.not_le, he.not_le, ht.not_le]

/-- Witness for C4: the validation theorem applied at `f = id`, `x0 = 5`,
default-like parameters. -/
theorem minimize_validates_in_order_witness :
    minimize PyVal.other (PyVal.fn (fun y => y)) 100 1 1 (1/4) (1/2) 1 1
        = Except.error ValueError.x0NotNumber ∧
    minimize (PyVal.num 5) (PyVal.fn (fun y => y)) 100 1 1 (1/4) (1/2) 1 1
        = Except.ok (minimize_loop (fun y => y) 100 1 1 (1/4) (1/2) 1 1 5 none 0) := by
  refine ⟨(minimize_validates_in_order (fun y => y) 5 100 1 1 (1/4) (1/2) 1 1).1, ?_⟩
  exact (minimize_validates_in_order (fun y => y) 5 100 1 1 (1/4) (1/2) 1 1).2.2.2.2.2.2
    (by norm_num) (by norm_num) (by norm_num)

/-- C5: when the estimated second derivative at the current iterate is zero
(resp. negative), the loop stops on that iteration and returns the current
iterate unchanged with the zero-second-derivative (resp. non-convexity)
warning — a recoverable termination, not an error. -/
theorem minimize_stops_on_nonpositive_second_derivative (f : ℚ → ℚ)
    (x0 max_iter eps tol alpha beta : ℚ) (ifuel ofuel : ℕ)
    (hfuel : 1 ≤ ofuel) :
    (get_second_derivative x0 f eps = 0 →
      minimize_loop f max_iter eps tol alpha beta ifuel ofuel x0 none 0
        = some (x0, ExitReason.zeroSecond, 0)) ∧
    (get_second_derivative x0 f eps < 0 →
      minimize_loop f max_iter eps tol alpha beta ifuel ofuel x0 none 0
        = some (x0, ExitReason.nonConvex, 0)) := by
  obtain ⟨k, rfl⟩ : ∃ k, ofuel = k + 1 := by
    cases ofuel with
    | zero => omega
    | succ k => exact ⟨k, rfl⟩
  constructor
  · intro h
    simp [minimize_loop, far_from, h]
  · intro h
    simp [minimize_loop, far_from, h, h.ne]

/-- Witness for C5: for the concave `f(y) = -y*y` (with `eps = 1`) the
second-derivative estimate at `x0 = 1` is negative, and `minimize` returns
`x0` unchanged with the non-convexity exit on the first iteration. -/
theorem minimize_stops_on_nonpositive_second_derivative_witness :
    get_second_derivative 1 (fun y => -(y * y)) 1 < 0 ∧
    minimize_loop (fun y => -(y * y)) 100 1 1 (1/4) (1/2) 1 1 1 none 0
      = some (1, ExitReason.nonConvex, 0) := by
  have h : get_second_derivative 1 (fun y => -(y * y)) 1 < 0 := by
    norm_num [get_second_derivative, get_first_derivative]
  exact ⟨h, (minimize_stops_on_nonpositive_second_derivative (fun y => -(y * y))
    1 100 1 1 (1/4) (1/2) 1 1 (by norm_num)).2 h⟩

/-- A point accepted by the backtracking line search satisfies the Armijo
inequality at the accepted step scale; when `alpha ≥ 0`, the trial scale is
nonnegative and `fd * d ≤ 0`, this makes its objective value at most the old
one. -/
theorem backtracking_line_search_descent (f : ℚ → ℚ) (alpha beta x_old d fd : ℚ)
    (ha : 0 ≤ alpha) (hb : 0 ≤ beta) (hfd : fd * d ≤ 0) :
    ∀ (fuel : ℕ) (t x' : ℚ), 0 ≤ t →
      backtracking_line_search f alpha beta x_old d fd t fuel = some x' →
      f x' ≤ f x_old := by
  intro fuel
  induction fuel with
  | zero =>
    intro t x' ht h
    simp [backtracking_line_search] at h
  | succ k ih =>
    intro t x' ht h
    rw [backtracking_line_search] at h
    split at h
    · exact ih (beta * t) x' (mul_nonneg hb ht) h
    · rename_i hcond
      push_neg at hcond
      have hx : x_old + t * d = x' := Option.some.inj h
      have hterm : alpha * t * fd * d ≤ 0 := by
        have h1 : 0 ≤ alpha * t := mul_nonneg ha ht
        calc alpha * t * fd * d = (alpha * t) * (fd * d) := by ring
          _ ≤ 0 := mul_nonpos_of_nonneg_of_nonpos h1 hfd
      rw [← hx]
      linarith

/-- C10: every iterate accepted by the backtracking line search satisfies
the Armijo sufficient-decrease inequality; since the search direction is
`-fd/sd` and the iteration only proceeds when `sd > 0`, the slope term
`fd * search_direction` is non-positive, so for nonnegative `alpha` and
`beta` the objective value never increases across the outer iterations: any
result of the loop has objective value at most that of the starting
iterate. -/
theorem minimize_objective_never_increases (f : ℚ → ℚ)
    (max_iter eps tol alpha beta : ℚ) (ifuel : ℕ)
    (ha : 0 ≤ alpha) (hb : 0 ≤ beta) :
    ∀ (ofuel : ℕ) (x0 : ℚ) (x_old : Option ℚ) (n : ℕ)
      (x' : ℚ) (r : ExitReason) (n' : ℕ),
      minimize_loop f max_iter eps tol alpha beta ifuel ofuel x0 x_old n
        = some (x', r, n') →
      f x' ≤ f x0 := by
  intro ofuel
  induction ofuel with
  | zero =>
    intro x0 x_old n x' r n' h
    simp [minimize_loop] at h
  | succ k ih =>
    intro x0 x_old n x' r n' h
    rw [minimize_loop] at h
    split at h
    · simp only [Option.some.injEq, Prod.mk.injEq] at h
      rw [← h.1]
    · split at h
      · simp only [Option.some.injEq, Prod.mk.injEq] at h
        rw [← h.1]
      · split at h
        · simp only [Option.some.injEq, Prod.mk.injEq] at h
          rw [← h.1]
        · rename_i hsd0 hsdneg
          have hsd : 0 < get_second_derivative x0 f eps :=
            lt_of_le_of_ne (not_lt.mp hsdneg) (Ne.symm hsd0)
          have hfdd : get_first_derivative x0 f eps *
              (-(get_first_derivative x0 f eps) / get_second_derivative x0 f eps) ≤ 0 := by
            have hnn : 0 ≤ get_first_derivative x0 f eps * get_first_derivative x0 f eps /
                get_second_derivative x0 f eps :=
              div_nonneg (mul_self_nonneg _) hsd.le
            have heq : get_first_derivative x0 f eps *
                (-(get_first_derivative x0 f eps) / get_second_derivative x0 f eps) =
                -(get_first_derivative x0 f eps * get_first_derivative x0 f eps /
                  get_second_derivative x0 f eps) := by ring
            rw [heq]
            linarith
          split at h
          · exact Option.noConfusion h
          · rename_i x1 hbl
            have hdesc : f x1 ≤ f x0 :=
              backtracking_line_search_descent f alpha beta x0 _ _ ha hb hfdd
                ifuel 1 x1 zero_le_one hbl
            split at h
            · simp only [Option.some.injEq, Prod.mk.injEq] at h
              rw [← h.1]
              exact hdesc
            · exact le_trans (ih x1 (some x0) (n + 1) x' r n' h) hdesc

/-- Witness for C10: the run of `minimize` on `f(y) = y*y` from `x0 = 2`
with `eps = tol = 1` terminates converged at `-1/2`, and the objective did
not increase. -/
theorem minimize_objective_never_increases_witness :
    minimize_loop (fun y => y * y) 100 1 1 (1/4) (1/2) 1 3 2 none 0
      = some (-(1/2), ExitReason.converged, 2) ∧
    ((-(1/2) : ℚ) * (-(1/2)) ≤ (2 : ℚ) * 2) := by
  have hrun : minimize_loop (fun y => y * y) 100 1 1 (1/4) (1/2) 1 3 2 none 0
      = some (-(1/2), ExitReason.converged, 2) := by
    norm_num [minimize_loop, backtracking_line_search, far_from,
      get_first_derivative, get_second_derivative, abs]
  refine ⟨hrun, ?_⟩
  simpa using minimize_objective_never_increases (fun y => y * y) 100 1 1 (1/4) (1/2)
    1 (by norm_num) (by norm_num) 3 2 none 0 (-(1/2)) ExitReason.converged 2 hrun

/-- C9: a strictly positive `max_iter` that is not a natural number (such as
`2.5`) passes validation, but the iteration-cap branch is then unreachable:
the integer counter `n_iter` is never numerically equal to `max_iter`, so no
run of the loop can exit with the iteration-cap warning — only convergence
or a zero/negative second derivative can end it. -/
theorem minimize_noninteger_max_iter_unreachable_cap (f : ℚ → ℚ)
    (max_iter eps tol alpha beta x : ℚ) (ifuel : ℕ)
    (hni : ∀ k : ℕ, (k : ℚ) ≠ max_iter) :
    (0 < max_iter → 0 < eps → 0 < tol → ∀ ofuel : ℕ,
      minimize (PyVal.num x) (PyVal.fn f) max_iter eps tol alpha beta ifuel ofuel
        = Except.ok (minimize_loop f max_iter eps tol alpha beta ifuel ofuel
            x none 0)) ∧
    (∀ (ofuel : ℕ) (x0 : ℚ) (x_old : Option ℚ) (n : ℕ)
        (x' : ℚ) (r : ExitReason) (n' : ℕ),
      minimize_loop f max_iter eps tol alpha beta ifuel ofuel x0 x_old n
        = some (x', r, n') →
      r ≠ ExitReason.maxIter) := by
  constructor
  · intro hm he ht ofuel
    simp [minimize, PyVal.callable, PyVal.isNumber, PyVal.toFun, PyVal.toRat,
      hm.not_le, he.not_le, ht.not_le]
  · intro ofuel
    induction ofuel with
    | zero =>
      intro x0 x_old n x' r n' h
      simp [minimize_loop] at h
    | succ k ih =>
      intro x0 x_old n x' r n' h
      rw [minimize_loop] at h
      split at h
      · simp only [Option.some.injEq, Prod.mk.injEq] at h
        rw [← h.2.1]
        simp
      · split at h
        · simp only [Option.some.injEq, Prod.mk.injEq] at h
          rw [← h.2.1]
          simp
        · split at h
          · simp only [Option.some.injEq, Prod.mk.injEq] at h
            rw [← h.2.1]
            simp
          · split at h
            · exact Option.noConfusion h
            · rename_i x1 hbl
              split at h
              · rename_i hcast
                exact absurd hcast (hni (n + 1))
              · exact ih x1 (some x0) (n + 1) x' r n' h

/-- Witness for C9: `max_iter = 5/2` is accepted by validation, and the run
on `f(y) = y` (whose second-derivative estimate is zero) exits with the
degenerate-derivative reason, which by the theorem is never the cap
reason. -/
theorem minimize_noninteger_max_iter_unreachable_cap_witness :
    minimize (PyVal.num 0) (PyVal.fn (fun y => y)) (5/2) 1 1 (1/4) (1/2) 1 1
      = Except.ok (some (0, ExitReason.zeroSecond, 0)) ∧
    ExitReason.zeroSecond ≠ ExitReason.maxIter := by
  have hni : ∀ k : ℕ, (k : ℚ) ≠ 5/2 := by
    intro k hk
    have h2 : ((2 * k : ℕ) : ℚ) = ((5 : ℕ) : ℚ) := by push_cast; linarith
    have h3 : 2 * k = 5 := by exact_mod_cast h2
    omega
  have hrun : minimize_loop (fun y => y) (5/2) 1 1 (1/4) (1/2) 1 1 0 none 0
      = some (0, ExitReason.zeroSecond, 0) := by
    norm_num [minimize_loop, far_from, get_first_derivative,
      get_second_derivative]
  constructor
  · have hok := (minimize_noninteger_max_iter_unreachable_cap (fun y => y)
      (5/2) 1 1 (1/4) (1/2) 0 1 hni).1 (by norm_num) (by norm_num) (by norm_num) 1
    rw [hok, hrun]
  · exact (minimize_noninteger_max_iter_unreachable_cap (fun y => y)
      (5/2) 1 1 (1/4) (1/2) 0 1 hni).2 1 0 none 0 0 ExitReason.zeroSecond 0 hrun

/-- An objective on which the line search can never succeed from `x0 = 0`
with `eps = 1`: below `0` it is the constant `1`, at and above `0` it is
`y*y`, so the derivative estimates at `0` (which only probe to the right)
suggest descent to the left while every leftward trial point has the larger
value `1`. -/
def spiteful_objective : ℚ → ℚ := fun y => if y < 0 then 1 else y * y

/-- The Armijo acceptance test of the backtracking line search (the exit
condition of the `while` on src/newton.py line 97) fails at every positive
step scale `t` for the given slope data. -/
def armijo_never_accepts (f : ℚ → ℚ) (alpha x_old d fd : ℚ) : Prop :=
  ∀ t : ℚ, 0 < t → f (x_old + t * d) > f x_old + alpha * t * fd * d

/-- The `minimize` loop returns no result within any amount of inner and
outer fuel: the embedded statement that the call never terminates. -/
def minimize_never_returns (f : ℚ → ℚ) (max_iter eps tol alpha beta x0 : ℚ) : Prop :=
  ∀ ifuel ofuel : ℕ,
    minimize_loop f max_iter eps tol alpha beta ifuel ofuel x0 none 0 = none

/-- If the Armijo test fails at every positive step scale and `beta > 0`,
the backtracking loop runs forever: no fuel makes it return. -/
theorem backtracking_line_search_none_of_never_accepts
    (f : ℚ → ℚ) (alpha beta x_old d fd : ℚ) (hb : 0 < beta)
    (h : armijo_never_accepts f alpha x_old d fd) :
    ∀ (fuel : ℕ) (t : ℚ), 0 < t →
      backtracking_line_search f alpha beta x_old d fd t fuel = none := by
  intro fuel
  induction fuel with
  | zero =>
    intro t ht
    rfl
  | succ k ih =>
    intro t ht
    rw [backtracking_line_search, if_pos (h t ht)]
    exact ih (beta * t) (mul_pos hb ht)

/-- C1 counterexample: on `spiteful_objective` with `eps = tol = 1`,
`alpha = 1/4`, `beta = 1/2`, `max_iter = 100`, the first iteration computes
derivative estimates `1` and `2` (so the loop enters its line search with
direction `-1/2`), the Armijo condition fails at every positive step scale,
and `minimize` never returns no matter how much fuel either loop is given:
the uncapped inner loop does prevent the call from stopping at
`max_iter`. -/
theorem minimize_hangs_when_armijo_never_holds :
    get_first_derivative 0 spiteful_objective 1 = 1 ∧
    get_second_derivative 0 spiteful_objective 1 = 2 ∧
    armijo_never_accepts spiteful_objective (1/4) 0 (-(1/2)) 1 ∧
    minimize_never_returns spiteful_objective 100 1 1 (1/4) (1/2) 0 := by
  have h1 : get_first_derivative 0 spiteful_objective 1 = 1 := by
    norm_num [get_first_derivative, spiteful_objective]
  have h2 : get_second_derivative 0 spiteful_objective 1 = 2 := by
    norm_num [get_second_derivative, get_first_derivative, spiteful_objective]
  have hnever : armijo_never_accepts spiteful_objective (1/4) 0 (-(1/2)) 1 := by
    intro t ht
    have hneg : (0 : ℚ) + t * (-(1/2)) < 0 := by
      have := mul_neg_of_pos_of_neg ht (show (-(1/2) : ℚ) < 0 by norm_num)
      linarith
    have hval : spiteful_objective (0 + t * (-(1/2))) = 1 := by
      simp only [spiteful_objective]
      rw [if_pos hneg]
    have h0 : spiteful_objective 0 = 0 := by norm_num [spiteful_objective]
    rw [hval, h0]
    nlinarith
  refine ⟨h1, h2, hnever, ?_⟩
  intro ifuel ofuel
  cases ofuel with
  | zero => rfl
  | succ k =>
    have hbl : backtracking_line_search spiteful_objective (1/4) (1/2) 0
        (-(get_first_derivative 0 spiteful_objective 1) /
          get_second_derivative 0 spiteful_objective 1)
        (get_first_derivative 0 spiteful_objective 1) 1 ifuel = none := by
      rw [h1, h2]
      have hd : (-(1 : ℚ)) / 2 = -(1/2) := by norm_num
      rw [hd]
      exact backtracking_line_search_none_of_never_accepts spiteful_objective
        (1/4) (1/2) 0 (-(1/2)) 1 (by norm_num) hnever ifuel 1 one_pos
    rw [minimize_loop]
    rw [if_neg (by simp [far_from])]
    rw [if_neg (by rw [h2]; norm_num)]
    rw [if_neg (by rw [h2]; norm_num)]
    rw [hbl]

/-- C1 amended: the cap really does bound the outer iterations — starting
from a counter below a natural `max_iter`, any result the loop returns has
final counter at most `max_iter`, and it carries the cap reason only with
final counter exactly `max_iter` — but nothing bounds the inner line-search
loop, so `minimize` as a whole need not terminate (see the
counterexample). -/
theorem minimize_iteration_count_bounded (f : ℚ → ℚ) (m : ℕ)
    (eps tol alpha beta : ℚ) (ifuel : ℕ) :
    ∀ (ofuel : ℕ) (x0 : ℚ) (x_old : Option ℚ) (n : ℕ)
      (x' : ℚ) (r : ExitReason) (n' : ℕ), n < m →
      minimize_loop f (m : ℚ) eps tol alpha beta ifuel ofuel x0 x_old n
        = some (x', r, n') →
      n' ≤ m ∧ (r = ExitReason.maxIter → n' = m) := by
  intro ofuel
  induction ofuel with
  | zero =>
    intro x0 x_old n x' r n' hn h
    simp [minimize_loop] at h
  | succ k ih =>
    intro x0 x_old n x' r n' hn h
    rw [minimize_loop] at h
    split at h
    · simp only [Option.some.injEq, Prod.mk.injEq] at h
      obtain ⟨-, hr, hn'⟩ := h
      exact ⟨by omega, fun hmax => absurd (hr.trans hmax) (by simp)⟩
    · split at h
      · simp only [Option.some.injEq, Prod.mk.injEq] at h
        obtain ⟨-, hr, hn'⟩ := h
        exact ⟨by omega, fun hmax => absurd (hr.trans hmax) (by simp)⟩
      · split at h
        · simp only [Option.some.injEq, Prod.mk.injEq] at h
          obtain ⟨-, hr, hn'⟩ := h
          exact ⟨by omega, fun hmax => absurd (hr.trans hmax) (by simp)⟩
        · split at h
          · exact Option.noConfusion h
          · rename_i x1 hbl
            split at h
            · rename_i hcast
              simp only [Option.some.injEq, Prod.mk.injEq] at h
              obtain ⟨-, hr, hn'⟩ := h
              have hm : n + 1 = m := by exact_mod_cast hcast
              exact ⟨by omega, fun _ => by omega⟩
            · rename_i hcast
              have hne : n + 1 ≠ m := fun he => hcast (by exact_mod_cast he)
              exact ih x1 (some x0) (n + 1) x' r n' (by omega) h

/-- Witness for C1's amended statement: a terminating run (`f(y) = y` exits
with the zero-second-derivative warning immediately) respects the bound. -/
theorem minimize_iteration_count_bounded_witness :
    minimize_loop (fun y => y) ((100 : ℕ) : ℚ) 1 1 (1/4) (1/2) 1 1 0 none 0
      = some (0, ExitReason.zeroSecond, 0) ∧
    (0 ≤ 100 ∧ (ExitReason.zeroSecond = ExitReason.maxIter → 0 = 100)) := by
  have hrun : minimize_loop (fun y => y) ((100 : ℕ) : ℚ) 1 1 (1/4) (1/2) 1 1 0 none 0
      = some (0, ExitReason.zeroSecond, 0) := by
    norm_num [minimize_loop, far_from, get_first_derivative,
      get_second_derivative]
  exact ⟨hrun, minimize_iteration_count_bounded (fun y => y) 100 1 1 (1/4) (1/2)
    1 1 0 none 0 0 ExitReason.zeroSecond 0 (by norm_num) hrun⟩

/-- A point of the plane: the 2-dimensional instance of the float vectors
`multivariate_newton` (src/newton_multivariate.py) iterates on. -/
abbrev Vec2 : Type := ℚ × ℚ

/-- Componentwise vector addition (`x_old + search_direction`). -/
def add2 (u v : Vec2) : Vec2 := (u.1 + v.1, u.2 + v.2)

/-- Componentwise vector subtraction (`x_new - x_old`). -/
def sub2 (u v : Vec2) : Vec2 := (u.1 - v.1, u.2 - v.2)

/-- Componentwise negation (the minus sign in `- np.linalg.solve(...)`). -/
def neg2 (v : Vec2) : Vec2 := (-v.1, -v.2)

/-- The squared Euclidean norm of a plane vector. -/
def normSq2 (v : Vec2) : ℚ := v.1 * v.1 + v.2 * v.2

/-- A 2×2 matrix `[[a, b], [c, d]]`, the concrete Hessian shape for the
2-dimensional instance. -/
structure Mat2 : Type where
  a : ℚ
  b : ℚ
  c : ℚ
  d : ℚ
deriving DecidableEq

/-- `np.linalg.det` for a 2×2 matrix. -/
def det2 (M : Mat2) : ℚ := M.a * M.d - M.b * M.c

/-- Matrix-vector product, used to state what `np.linalg.solve` solves. -/
def mulVec2 (M : Mat2) (v : Vec2) : Vec2 :=
  (M.a * v.1 + M.b * v.2, M.c * v.1 + M.d * v.2)

/-- `np.linalg.solve(M, v)`: the solution of `M · x = v`, by Cramer's rule
(exact over `ℚ` whenever `det2 M ≠ 0`, which is the only situation the
solver reaches it in). -/
def solve2 (M : Mat2) (v : Vec2) : Vec2 :=
  ((M.d * v.1 - M.b * v.2) / det2 M, (M.a * v.2 - M.c * v.1) / det2 M)

/-- The search direction of src/newton_multivariate.py line 86:
`- np.linalg.solve(hessian_matrix, gradient)`. -/
def newton_direction (grad : Vec2 → Vec2) (hess : Vec2 → Mat2) (x : Vec2) : Vec2 :=
  neg2 (solve2 (hess x) (grad x))

/-- The `while np.linalg.norm(x_new - x_old) > tol` test of line 78, with
`none` embedding the initial `x_old = np.inf` (the test always holds
against it).  The norm comparison is embedded squared on both sides, which
is equivalent for the positive `tol` validation enforces and keeps the test
inside `ℚ`. -/
def mv_far_from (x : Vec2) (x_old : Option Vec2) (tol : ℚ) : Prop :=
  match x_old with
  | none => True
  | some y => normSq2 (sub2 x y) > tol * tol

instance (x : Vec2) (x_old : Option Vec2) (tol : ℚ) :
    Decidable (mv_far_from x x_old tol) := by
  unfold mv_far_from
  cases x_old with
  | none => exact inferInstance
  | some y => exact inferInstance

/-- How a run of `multivariate_newton` ended: convergence, the
singular-Hessian warning (line 83), or the iteration-cap warning
(line 92). -/
inductive MvExitReason : Type
  | converged
  | singular
  | maxIter
deriving DecidableEq

/-- Embeds the loop of `multivariate_newton` (src/newton_multivariate.py,
lines 74-95) in dimension 2.  `grad` and `hess` stand for
`get_gradient(·, fun)` and `get_hessian(·, fun)`; those two functions are
thin wrappers around jax automatic differentiation, whose semantics lives
outside the repository, so per spec §4.3 they are taken here as oracles
that the caller instantiates with the exact derivatives.  As in the
univariate case, `max_iter` is rational, fuel bounds the loop unfolding,
and the exit reason records which warning (if any) ended the run. -/
def multivariate_newton (grad : Vec2 → Vec2) (hess : Vec2 → Mat2)
    (max_iter tol : ℚ) : ℕ → Vec2 → Option Vec2 → ℕ →
    Option (Vec2 × MvExitReason × ℕ)
  | 0, _, _, _ => none
  | fuel + 1, x_new, x_old, n_iter =>
    if ¬ mv_far_from x_new x_old tol then
      some (x_new, MvExitReason.converged, n_iter)
    else if det2 (hess x_new) < 1 / 10000000000 then
      some (x_new, MvExitReason.singular, n_iter)
    else
      if ((n_iter + 1 : ℕ) : ℚ) = max_iter then
        some (add2 x_new (newton_direction grad hess x_new),
          MvExitReason.maxIter, n_iter + 1)
      else
        multivariate_newton grad hess max_iter tol fuel
          (add2 x_new (newton_direction grad hess x_new)) (some x_new)
          (n_iter + 1)

/-- C6: in each iteration of `multivariate_newton` (whenever the loop body
is entered because the displacement test holds): if `det(Hessian) < 1e-10`
the run stops with the singular-Hessian warning, returning the current
iterate; otherwise the determinant is nonzero, the search direction `d`
exactly solves `Hessian · d = -gradient`, and the next iterate is the full
Newton step `x + d` — no line search is interposed. -/
theorem multivariate_newton_step (grad : Vec2 → Vec2) (hess : Vec2 → Mat2)
    (max_iter tol : ℚ) (fuel : ℕ) (x : Vec2) (x_old : Option Vec2) (n : ℕ)
    (hfar : mv_far_from x x_old tol) :
    (det2 (hess x) < 1 / 10000000000 →
      multivariate_newton grad hess max_iter tol (fuel + 1) x x_old n
        = some (x, MvExitReason.singular, n)) ∧
    (¬ det2 (hess x) < 1 / 10000000000 →
      mulVec2 (hess x) (newton_direction grad hess x) = neg2 (grad x) ∧
      multivariate_newton grad hess max_iter tol (fuel + 1) x x_old n
        = (if ((n + 1 : ℕ) : ℚ) = max_iter then
            some (add2 x (newton_direction grad hess x),
              MvExitReason.maxIter, n + 1)
          else
            multivariate_newton grad hess max_iter tol fuel
              (add2 x (newton_direction grad hess x)) (some x) (n + 1))) := by
  constructor
  · intro hdet
    rw [multivariate_newton, if_neg (by simpa using hfar), if_pos hdet]
  · intro hdet
    have hdetne : det2 (hess x) ≠ 0 := by
      intro h0
      exact hdet (by rw [h0]; norm_num)
    constructor
    · simp only [newton_direction, mulVec2, neg2, solve2, det2] at *
      simp only [Prod.mk.injEq]
      constructor
      · field_simp
        ring
      · field_simp
        ring
    · rw [multivariate_newton, if_neg (by simpa using hfar), if_neg hdet]

/-- Modelled from the spec: `get_gradient(x, fun)`
(src/newton_multivariate.py line 22) returns the exact gradient of `fun` at
`x` via jax automatic differentiation; jax lives outside the repository, so
for the spec's quadratic objective `f(x,y) = (x-1)² + (y-2)²` the exact
gradient `(2(x-1), 2(y-2))` is supplied directly. -/
def quadratic_gradient : Vec2 → Vec2 := fun v => (2 * (v.1 - 1), 2 * (v.2 - 2))

/-- Modelled from the spec: `get_hessian(x, fun)`
(src/newton_multivariate.py line 42) returns the exact Hessian via jax
automatic differentiation; for `f(x,y) = (x-1)² + (y-2)²` it is the
constant matrix `[[2, 0], [0, 2]]`. -/
def quadratic_hessian : Vec2 → Mat2 := fun _ => Mat2.mk 2 0 0 2

/-- A constant singular Hessian oracle (determinant `0`), used to exercise
the singular branch of the step theorem. -/
def singular_hessian : Vec2 → Mat2 := fun _ => Mat2.mk 1 2 2 4

/-- Witness for C6: at `x = (0,0)` with the quadratic oracles the
non-singular branch takes the full Newton step solving the linear system,
and with a zero-determinant Hessian oracle the singular branch returns the
iterate unchanged. -/
theorem multivariate_newton_step_witness :
    mulVec2 (quadratic_hessian (0, 0))
        (newton_direction quadratic_gradient quadratic_hessian (0, 0))
      = neg2 (quadratic_gradient (0, 0)) ∧
    multivariate_newton quadratic_gradient singular_hessian 100 (1/100000)
        1 (0, 0) none 0 = some ((0, 0), MvExitReason.singular, 0) := by
  constructor
  · exact ((multivariate_newton_step quadratic_gradient quadratic_hessian
      100 (1/100000) 0 (0, 0) none 0 (by simp [mv_far_from])).2
        (by norm_num [quadratic_hessian, det2])).1
  · exact (multivariate_newton_step quadratic_gradient singular_hessian
      100 (1/100000) 0 (0, 0) none 0 (by simp [mv_far_from])).1
        (by norm_num [singular_hessian, det2])

/-- C7: on `f(x,y) = (x-1)² + (y-2)²` from `x0 = (0,0)` with the default
`max_iter = 100` and `tol = 1e-5`, the first Newton step lands exactly on
`(1, 2)` (a single step of the exact Hessian suffices for the quadratic),
and the run returns `(1, 2)` — distance `0`, well within `1e-4`, of
`[1.0, 2.0]` — converged after the second pass confirms a zero
displacement. -/
theorem multivariate_newton_on_quadratic :
    add2 (0, 0) (newton_direction quadratic_gradient quadratic_hessian (0, 0))
      = ((1 : ℚ), (2 : ℚ)) ∧
    multivariate_newton quadratic_gradient quadratic_hessian 100 (1/100000)
        3 (0, 0) none 0 = some (((1 : ℚ), (2 : ℚ)), MvExitReason.converged, 2) ∧
    normSq2 (sub2 ((1 : ℚ), (2 : ℚ)) (1, 2)) ≤ (1/10000) * (1/10000) := by
  refine ⟨by norm_num [add2, newton_direction, neg2, solve2, det2,
    quadratic_gradient, quadratic_hessian], ?_, by norm_num [normSq2, sub2]⟩
  norm_num [multivariate_newton, mv_far_from, normSq2, sub2, add2,
    newton_direction, neg2, solve2, det2, quadratic_gradient,
    quadratic_hessian]

/-- An affine function is convex on all of `ℚ`. -/
theorem convexOn_affine (c d : ℚ) :
    ConvexOn ℚ Set.univ (fun x : ℚ => c * x + d) := by
  refine ⟨convex_univ, fun x _ y _ a b ha hb hab => ?_⟩
  simp only [smul_eq_mul]
  have h : c * (a * x + b * y) + d = a * (c * x + d) + b * (c * y + d) := by
    have h1 : b = 1 - a := by linarith
    subst h1
    ring
  exact le_of_eq h

/-- The pointwise maximum of two convex functions is convex. -/
theorem convexOn_max {f g : ℚ → ℚ} (hf : ConvexOn ℚ Set.univ f)
    (hg : ConvexOn ℚ Set.univ g) :
    ConvexOn ℚ Set.univ (fun x => max (f x) (g x)) := by
  refine ⟨convex_univ, fun x hx y hy a b ha hb hab => ?_⟩
  simp only [smul_eq_mul]
  apply max_le
  · refine le_trans (by simpa using hf.2 hx hy ha hb hab) ?_
    exact add_le_add (mul_le_mul_of_nonneg_left (le_max_left _ _) ha)
      (mul_le_mul_of_nonneg_left (le_max_left _ _) hb)
  · refine le_trans (by simpa using hg.2 hx hy ha hb hab) ?_
    exact add_le_add (mul_le_mul_of_nonneg_left (le_max_right _ _) ha)
      (mul_le_mul_of_nonneg_left (le_max_right _ _) hb)

/-- A globally convex piecewise-linear objective (the maximum of seven
affine pieces) with a flat global minimum on `[-17/2, -15/2]` and a long
shallow slope to its right.  Started at `0` with `eps = tol = 1` the solver
takes one small step to `-1/2` and converges there; restarted at `-1/2`,
the derivative estimates see the shallow slope (tiny curvature `1/16`), so
the first Newton step jumps all the way to `-17/2`, where the run converges
again — `8` away from `-1/2`. -/
def valley_objective : ℚ → ℚ := fun x =>
  max ((-1) * x + (-17/2))
    (max (0 * x + 0)
      (max ((1/4) * x + 15/8)
        (max ((7/24) * x + 103/48)
          (max ((1/2) * x + 9/4)
            (max ((5/8) * x + 17/8)
              ((19/8) * x + (-1/2)))))))

/-- `valley_objective` is convex on all of `ℚ`: it is a maximum of affine
functions. -/
theorem valley_objective_convexOn : ConvexOn ℚ Set.univ valley_objective :=
  convexOn_max (convexOn_affine (-1) (-17/2))
    (convexOn_max (convexOn_affine 0 0)
      (convexOn_max (convexOn_affine (1/4) (15/8))
        (convexOn_max (convexOn_affine (7/24) (103/48))
          (convexOn_max (convexOn_affine (1/2) (9/4))
            (convexOn_max (convexOn_affine (5/8) (17/8))
              (convexOn_affine (19/8) (-1/2)))))))

/-- C8 counterexample: `valley_objective` is convex, `minimize` from
`x0 = 0` (with `max_iter = 100`, `eps = tol = 1`, `alpha = 1/4`,
`beta = 1/2`) converges at `x* = -1/2`, yet rerun from `x*` with the same
parameters it converges at `-17/2`, which is `8 > tol` away from `x*`:
`minimize` is not idempotent up to `tol` even for a convex objective and a
converged first run. -/
theorem minimize_rerun_can_move_beyond_tol :
    ConvexOn ℚ Set.univ valley_objective ∧
    minimize_loop valley_objective 100 1 1 (1/4) (1/2) 1 2 0 none 0
      = some (-(1/2), ExitReason.converged, 1) ∧
    minimize_loop valley_objective 100 1 1 (1/4) (1/2) 1 3 (-(1/2)) none 0
      = some (-(17/2), ExitReason.converged, 2) ∧
    ¬ (|(-(17/2) : ℚ) - (-(1/2))| ≤ 1) := by
  refine ⟨valley_objective_convexOn, ?_, ?_, by norm_num [abs]⟩
  · norm_num [minimize_loop, backtracking_line_search, far_from,
      get_first_derivative, get_second_derivative, valley_objective,
      max_def, abs]
  · norm_num [minimize_loop, backtracking_line_search, far_from,
      get_first_derivative, get_second_derivative, valley_objective,
      max_def, abs]

/-- The iteration counter of the `minimize` loop never decreases from entry
to exit. -/
theorem minimize_loop_counter_monotone (f : ℚ → ℚ)
    (max_iter eps tol alpha beta : ℚ) (ifuel : ℕ) :
    ∀ (ofuel : ℕ) (x0 : ℚ) (x_old : Option ℚ) (n : ℕ)
      (x' : ℚ) (r : ExitReason) (n' : ℕ),
      minimize_loop f max_iter eps tol alpha beta ifuel ofuel x0 x_old n
        = some (x', r, n') → n ≤ n' := by
  intro ofuel
  induction ofuel with
  | zero =>
    intro x0 x_old n x' r n' h
    simp [minimize_loop] at h
  | succ k ih =>
    intro x0 x_old n x' r n' h
    rw [minimize_loop] at h
    split at h
    · simp only [Option.some.injEq, Prod.mk.injEq] at h
      omega
    · split at h
      · simp only [Option.some.injEq, Prod.mk.injEq] at h
        omega
      · split at h
        · simp only [Option.some.injEq, Prod.mk.injEq] at h
          omega
        · split at h
          · exact Option.noConfusion h
          · rename_i x1 hbl
            split at h
            · simp only [Option.some.injEq, Prod.mk.injEq] at h
              omega
            · have := ih x1 (some x0) (n + 1) x' r n' h
              omega

/-- C8 amended: a converged exit only certifies that the final displacement
is within `tol` — so when a run started at `x0` converges on its very first
iteration, its result is within `tol` of `x0` (in particular a rerun from a
previous result that converges in one iteration stays within `tol` of it);
in general a converged rerun may end farther than `tol` from its starting
point, as the counterexample shows. -/
theorem minimize_converged_first_iteration_within_tol (f : ℚ → ℚ)
    (max_iter eps tol alpha beta x0 : ℚ) (ifuel ofuel : ℕ) (x' : ℚ)
    (h : minimize_loop f max_iter eps tol alpha beta ifuel ofuel x0 none 0
      = some (x', ExitReason.converged, 1)) :
    |x' - x0| ≤ tol := by
  cases ofuel with
  | zero => simp [minimize_loop] at h
  | succ k =>
    rw [minimize_loop] at h
    rw [if_neg (by simp [far_from])] at h
    split at h
    · simp at h
    · split at h
      · simp at h
      · split at h
        · exact Option.noConfusion h
        · rename_i x1 hbl
          split at h
          · simp at h
          · cases k with
            | zero => simp [minimize_loop] at h
            | succ m =>
              rw [minimize_loop] at h
              by_cases hfar : far_from x1 (some x0) tol
              · rw [if_neg (not_not_intro hfar)] at h
                split at h
                · simp at h
                · split at h
                  · simp at h
                  · split at h
                    · exact Option.noConfusion h
                    · rename_i x2 hbl2
                      split at h
                      · simp at h
                      · have h2 := minimize_loop_counter_monotone f max_iter
                          eps tol alpha beta ifuel m x2 (some x1) 2 x'
                          ExitReason.converged 1 h
                        omega
              · rw [if_pos hfar] at h
                simp only [Option.some.injEq, Prod.mk.injEq] at h
                obtain ⟨hx, -, -⟩ := h
                simp only [far_from, not_lt] at hfar
                rw [← hx]
                exact hfar

/-- Witness for C8's amended statement: the first run of the counterexample
objective converges on its first iteration, and its result `-1/2` is indeed
within `tol = 1` of the start `0`. -/
theorem minimize_converged_first_iteration_within_tol_witness :
    minimize_loop valley_objective 100 1 1 (1/4) (1/2) 1 2 0 none 0
      = some (-(1/2), ExitReason.converged, 1) ∧
    |(-(1/2) : ℚ) - 0| ≤ 1 := by
  have hrun : minimize_loop valley_objective 100 1 1 (1/4) (1/2) 1 2 0 none 0
      = some (-(1/2), ExitReason.converged, 1) := by
    norm_num [minimize_loop, backtracking_line_search, far_from,
      get_first_derivative, get_second_derivative, valley_objective,
      max_def, abs]
  exact ⟨hrun, minimize_converged_first_iteration_within_tol valley_objective
    100 1 1 (1/4) (1/2) 0 1 2 (-(1/2)) hrun⟩
